import Mathlib

/-!
Shallow embedding of `monitor.py`, a website-change monitor.

The program polls a set of URLs, extracts visible text from each page,
compares it with the stored snapshot, emails a notification on change,
and persists the updated snapshot mapping in a two-column SQLite table.

External effects (the network, the SMTP relay, the wall clock) are
modelled as oracle functions bundled in an `Env`; fallible operations
return `Option`.  The snapshot store is an association list keyed by
URL (the table's PRIMARY KEY makes keys unique); a stored content value
is `Option String` because the `content` column is nullable.
-/

set_option autoImplicit false

namespace Monitor

/-! ### Python string primitives

`str.strip()` removes leading and trailing whitespace; the whitespace
set relevant here is Python's ASCII whitespace. -/

def py_isspace (c : Char) : Bool :=
  c == ' ' || c == '\t' || c == '\n' || c == '\r' || c == '\x0B' || c == '\x0C'

def py_strip (s : String) : String :=
  String.mk (((s.data.dropWhile py_isspace).reverse.dropWhile py_isspace).reverse)

/-- Python truthiness of the nullable `old_content` value read from the
database: `None` and the empty string are falsy (`if not old_content:`). -/
def py_falsy : Option String → Bool
  | none => true
  | some s => s == ""

/-! ### HTML documents and BeautifulSoup operations

`BeautifulSoup(response.text, "html.parser")` yields a node tree; we
model element nodes with their tag name, their (multi-valued) `class`
attribute and children, plus text nodes.  A parsed document is the list
of top-level nodes (`html.parser` does not synthesize missing
`<html>`/`<body>` elements). -/

inductive Html where
  | text (s : String)
  | tag (name : String) (classes : List String) (children : List Html)
deriving Repr

/- `soup.find(...)`: first matching element in pre-order document
order, descending into children before moving to later siblings.
Only element nodes match. -/
mutual

def find_node (p : String → List String → Bool) : Html → Option Html
  | .text _ => none
  | .tag n cs ch => if p n cs then some (.tag n cs ch) else find_list p ch

def find_list (p : String → List String → Bool) : List Html → Option Html
  | [] => none
  | h :: t =>
    match find_node p h with
    | some r => some r
    | none => find_list p t

end

/- `tag.get_text(strip=True)`: every descendant text node, stripped,
concatenated in document order with no separator. -/
mutual

def get_text_strip : Html → String
  | .text s => py_strip s
  | .tag _ _ ch => get_text_strip_list ch

def get_text_strip_list : List Html → String
  | [] => ""
  | h :: t => get_text_strip h ++ get_text_strip_list t

end

/-- Matcher for `soup.find("main")`. -/
def is_main_tag (n : String) (_ : List String) : Bool := n == "main"

/-- Matcher for `soup.find("div", class_="content")`: a `div` whose
multi-valued `class` attribute contains `"content"`. -/
def is_content_div (n : String) (cs : List String) : Bool :=
  n == "div" && cs.contains "content"

/-- Matcher for `soup.find("body")`. -/
def is_body_tag (n : String) (_ : List String) : Bool := n == "body"

/-! ### The page fetcher `get_page_content` -/

/-- Outcome of `requests.get(url, headers=headers, timeout=10)`: either a
`requests.RequestException` (timeout, DNS failure, connection error), or
a response with an HTTP status code and a parsed HTML body. -/
inductive FetchOutcome where
  | exn (msg : String)
  | response (status : Nat) (doc : List Html)

/-- What a call to `get_page_content` produces: the returned value
(`none` models Python `None`, the failure marker), plus whether the
`except` branch ran `logging.error`. -/
structure FetchRes where
  content : Option String
  errorLogged : Bool
deriving Repr, DecidableEq

/-- Model of `get_page_content(url)`.  `response.raise_for_status()` raises
`requests.HTTPError` for 4xx and 5xx status codes; any
`requests.RequestException` is caught, logged, and turned into `None`.
On success the content region is
`soup.find("main") or soup.find("div", class_="content") or soup.find("body")`
(bs4 `Tag.__bool__` is `True`, so a found tag — even an empty one — is
truthy and the `or` chain picks the first find that succeeded), and the
result is its `get_text(strip=True)`, or `""` when all three finds
return `None`. -/
def get_page_content (web : String → FetchOutcome) (url : String) : FetchRes :=
  match web url with
  | .exn _ => { content := none, errorLogged := true }
  | .response status doc =>
    if 400 ≤ status ∧ status < 600 then
      { content := none, errorLogged := true }
    else
      let main_content :=
        (find_list is_main_tag doc).orElse fun _ =>
          (find_list is_content_div doc).orElse fun _ =>
            find_list is_body_tag doc
      { content :=
          some (match main_content with
                | some h => get_text_strip h
                | none => ""),
        errorLogged := false }

/-! ### The notifier `send_email` -/

/-- Subject line `f"🌐 Website Change Detected: {url}"`. -/
def email_subject (url : String) : String :=
  "🌐 Website Change Detected: " ++ url

/-- The `msg.set_content(f"""...""")` body, with `ts` standing for
`time.strftime('%Y-%m-%d %H:%M:%S')`.  Python's `s[:500]` is
`String.take s 500`; note the `...` is appended unconditionally. -/
def email_body (ts url old_content new_content : String) : String :=
  "\n    🔔 **Website Update Alert**\n    -------------------------------\n    🖥 **Website:** "
    ++ url
    ++ "\n    \n    🕒 **Detected Change at:** "
    ++ ts
    ++ "\n    \n    📜 **Old Content (First 500 chars):**\n    "
    ++ (old_content.take 500 ++ ("..."
    ++ ("\n    \n    🆕 **New Content (First 500 chars):**\n    "
    ++ (new_content.take 500 ++ ("..."
    ++ ("\n    \n    📌 Check the website for full details: "
    ++ (url ++ "\n    ")))))))

/-- External world of one run: the network (`requests.get` outcomes per
URL), the SMTP relay (whether `SMTP_SSL` login-and-send succeeds for a
given message's URL), and the clock (`time.strftime` output). -/
structure Env where
  web : String → FetchOutcome
  deliver : String → Bool
  now : String

/-- The observable effect of one `send_email(url, old, new)` call: the
composed message and whether delivery succeeded.  A failed delivery is
caught inside `send_email` (`except Exception: logging.error(...)`), so
the call always returns normally — modelled by `send_email` being a
total function whose `delivered` field records the outcome. -/
structure Notification where
  url : String
  old_content : String
  new_content : String
  subject : String
  body : String
  delivered : Bool
deriving Repr, DecidableEq

/-- Model of `send_email(url, old_content, new_content)`. -/
def send_email (env : Env) (url old_content new_content : String) : Notification :=
  { url := url
    old_content := old_content
    new_content := new_content
    subject := email_subject url
    body := email_body env.now url old_content new_content
    delivered := env.deliver url }

/-! ### Per-URL monitoring step `monitor_website` -/

/-- Model of `monitor_website(url, old_content)`: returns the `(url, content)`
pair that goes into the cycle's result dict, together with the list of
`send_email` calls made (in order).  `old_content` is the nullable
value from the database; `if not old_content:` treats both `None` and
`""` as "first-time monitoring". -/
def monitor_website (env : Env) (url : String) (old_content : Option String) :
    (String × Option String) × List Notification :=
  match (get_page_content env.web url).content with
  | none => ((url, old_content), [])
  | some new_content =>
    match old_content with
    | none => ((url, some new_content), [])
    | some old =>
      if old == "" then
        ((url, some new_content), [])
      else if new_content ≠ old then
        ((url, some new_content), [send_email env url old new_content])
      else
        ((url, some old), [])

/-! ### One cycle of the monitoring loop

One iteration of the `while True:` body in `monitor_websites`: map
`monitor_website` over every `(url, content)` item of the loaded
mapping (the `ThreadPoolExecutor.map` keeps results in input order and
each URL is processed by exactly one independent unit), build the
updated mapping from the results, then persist it. -/

def monitor_cycle (env : Env) (websites : List (String × Option String)) :
    List (String × Option String) × List Notification :=
  let results := websites.map fun item => monitor_website env item.1 item.2
  (results.map Prod.fst, (results.map Prod.snd).flatten)

/-- Ordered trace of the cycle's observable effects: every
`send_email` call happens inside `monitor_website`, before the single
`save_websites(updated_websites)` call that stores the new contents. -/
inductive Event where
  | notify (n : Notification)
  | store (m : List (String × Option String))
deriving Repr, DecidableEq

def cycle_events (env : Env) (websites : List (String × Option String)) : List Event :=
  ((monitor_cycle env websites).2.map Event.notify) ++ [Event.store (monitor_cycle env websites).1]

/-! ### The persistent store

The table `websites (url TEXT PRIMARY KEY, content TEXT)` is modelled
as a list of rows in insertion order; the PRIMARY KEY rejects a second
row with an existing key. -/

/-- One `INSERT INTO websites (url, content) VALUES (?, ?)`: fails
(`sqlite3.IntegrityError`, a `sqlite3.Error`) when the key exists. -/
def insert_row (table : List (String × Option String)) (row : String × Option String) :
    Option (List (String × Option String)) :=
  if (table.map Prod.fst).contains row.1 then none else some (table ++ [row])

/-- Model of `cursor.executemany("INSERT ...", websites.items())`. -/
def insert_many (table : List (String × Option String)) :
    List (String × Option String) → Option (List (String × Option String))
  | [] => some table
  | row :: rest =>
    match insert_row table row with
    | none => none
    | some t => insert_many t rest

/-- Model of `save_websites(websites)`: inside one transaction, `DELETE FROM
websites` then insert every item; `conn.commit()` on success.  A
`sqlite3.Error` is caught and logged, and `conn.close()` without commit
rolls the transaction back, leaving the table as it was. -/
def save_websites (table m : List (String × Option String)) :
    List (String × Option String) :=
  match insert_many [] m with
  | some t => t
  | none => table

/-- Building the dict `{row[0]: row[1] for row in cursor.fetchall()}`:
a later duplicate key would overwrite the earlier entry. -/
def dict_insert (d : List (String × Option String)) (kv : String × Option String) :
    List (String × Option String) :=
  if (d.map Prod.fst).contains kv.1 then
    d.map fun r => if r.1 == kv.1 then (r.1, kv.2) else r
  else
    d ++ [kv]

/-- Model of `load_websites()`: `SELECT url, content FROM websites`, collected
into a dict. -/
def load_websites (table : List (String × Option String)) :
    List (String × Option String) :=
  table.foldl dict_insert []

/-! ### Spec-side characterizations

The spec describes the fetcher's region selection as "the first
matching region" in document order and its text extraction as
concatenating the whitespace-stripped text nodes without separators.
The following definitions state that reading independently of the
`find`/`get_text` recursions above. -/

/- All nodes of a document in pre-order document order. -/
mutual

def preorder_node : Html → List Html
  | .text s => [.text s]
  | .tag n cs ch => .tag n cs ch :: preorder_list ch

def preorder_list : List Html → List Html
  | [] => []
  | h :: t => preorder_node h ++ preorder_list t

end

/-- Whether a node is an element matching the given tag predicate. -/
def html_matches (p : String → List String → Bool) : Html → Bool
  | .text _ => false
  | .tag n cs _ => p n cs

/- All text-node strings of a node, in document order. -/
mutual

def texts_node : Html → List String
  | .text s => [s]
  | .tag _ _ ch => texts_list ch

def texts_list : List Html → List String
  | [] => []
  | h :: t => texts_node h ++ texts_list t

end

/-- Concatenation of a list of strings with no separator. -/
def concat_all : List String → String
  | [] => ""
  | s :: t => s ++ concat_all t

/-- The failure conditions of one fetch: a transport-level exception
from `requests.get`, or an HTTP error status (the 4xx/5xx range that
`raise_for_status` rejects). -/
def fetch_failure : FetchOutcome → Bool
  | .exn _ => true
  | .response status _ => decide (400 ≤ status ∧ status < 600)

/-- Predicate: `t` occurs as a contiguous substring of `s`. -/
def str_contains_spec (s t : String) : Prop :=
  ∃ a b : String, s = a ++ (t ++ b)

/-! ### Concrete test fixtures (used by the witnesses) -/

def doc_world : List Html := [Html.tag "body" [] [Html.text "World"]]

def env_world : Env :=
  { web := fun _ => FetchOutcome.response 200 doc_world
    deliver := fun _ => true
    now := "2026-02-03 04:05:06" }

def env_fail_a : Env :=
  { web := fun u => if u == "a" then FetchOutcome.exn "timeout" else FetchOutcome.response 200 doc_world
    deliver := fun _ => true
    now := "2026-02-03 04:05:06" }

def env_nodeliver_a : Env :=
  { web := fun _ => FetchOutcome.response 200 doc_world
    deliver := fun u => !(u == "a")
    now := "2026-02-03 04:05:06" }

def doc_main_hi : List Html :=
  [Html.tag "html" []
    [Html.tag "main" [] [Html.text "  Hi  "],
     Html.tag "body" [] [Html.text "B"]]]

def env_main_hi : Env :=
  { web := fun _ => FetchOutcome.response 200 doc_main_hi
    deliver := fun _ => true
    now := "2026-02-03 04:05:06" }

/-! ### Helper lemmas -/

theorem concat_all_append (a b : List String) :
    concat_all (a ++ b) = concat_all a ++ concat_all b := by
  induction a with
  | nil => simp [concat_all]
  | cons s t ih => simp [concat_all, ih, String.append_assoc]

/- `soup.find` returns exactly the first matching element of the
pre-order node list. -/
mutual

theorem find_node_eq_first (p : String → List String → Bool) :
    ∀ h : Html, find_node p h = (preorder_node h).find? (html_matches p)
  | .text s => by
    simp [find_node, preorder_node, List.find?, html_matches]
  | .tag n cs ch => by
    cases hp : p n cs <;>
      simp [find_node, preorder_node, List.find?_cons, html_matches, hp,
        find_list_eq_first p ch]

theorem find_list_eq_first (p : String → List String → Bool) :
    ∀ l : List Html, find_list p l = (preorder_list l).find? (html_matches p)
  | [] => by
    simp [find_list, preorder_list, List.find?]
  | h :: t => by
    simp only [find_list, preorder_list, List.find?_append,
      ← find_node_eq_first p h, ← find_list_eq_first p t]
    cases find_node p h <;> rfl

end

/- `get_text(strip=True)` concatenates the stripped text-node strings in
document order with no separator. -/
mutual

theorem get_text_strip_eq_concat :
    ∀ h : Html, get_text_strip h = concat_all ((texts_node h).map py_strip)
  | .text s => by
    simp [get_text_strip, texts_node, concat_all]
  | .tag n cs ch => by
    simp [get_text_strip, texts_node, get_text_strip_list_eq_concat ch]

theorem get_text_strip_list_eq_concat :
    ∀ l : List Html, get_text_strip_list l = concat_all ((texts_list l).map py_strip)
  | [] => by
    simp [get_text_strip_list, texts_list, concat_all]
  | h :: t => by
    simp [get_text_strip_list, texts_list, get_text_strip_eq_concat h,
      get_text_strip_list_eq_concat t, concat_all_append]

end

theorem insert_many_of_nodup :
    ∀ (m acc : List (String × Option String)),
      ((acc ++ m).map Prod.fst).Nodup → insert_many acc m = some (acc ++ m) := by
  intro m
  induction m with
  | nil => intro acc _; simp [insert_many]
  | cons row rest ih =>
    intro acc hnd
    have hnotin : row.1 ∉ acc.map Prod.fst := by
      intro hmem
      rw [List.map_append] at hnd
      rcases List.nodup_append.mp hnd with ⟨-, -, hdisj⟩
      exact hdisj hmem (by simp)
    have hcond : ((acc.map Prod.fst).contains row.1) = false := by
      simpa using hnotin
    simp only [insert_many, insert_row, hcond]
    simp only [Bool.false_eq_true, if_false]
    have := ih (acc ++ [row]) (by simpa using hnd)
    rw [this]
    simp

theorem foldl_dict_insert_of_nodup :
    ∀ (l d : List (String × Option String)),
      ((d ++ l).map Prod.fst).Nodup → l.foldl dict_insert d = d ++ l := by
  intro l
  induction l with
  | nil => intro d _; simp
  | cons kv t ih =>
    intro d hnd
    have hnotin : kv.1 ∉ d.map Prod.fst := by
      intro hmem
      rw [List.map_append] at hnd
      rcases List.nodup_append.mp hnd with ⟨-, -, hdisj⟩
      exact hdisj hmem (by simp)
    have hcond : ((d.map Prod.fst).contains kv.1) = false := by
      simpa using hnotin
    simp only [List.foldl_cons, dict_insert, hcond]
    simp only [Bool.false_eq_true, if_false]
    have := ih (d ++ [kv]) (by simpa using hnd)
    rw [this]
    simp

/-- Function `monitor_website` always returns a pair whose key is its own URL. -/
theorem monitor_website_url (env : Env) (u : String) (c : Option String) :
    (monitor_website env u c).1.1 = u := by
  unfold monitor_website
  repeat' split
  all_goals rfl

/-- Every notification emitted by `monitor_website env u c` carries URL `u`. -/
theorem monitor_website_notif_url (env : Env) (u : String) (c : Option String) :
    ∀ n ∈ (monitor_website env u c).2, n.url = u := by
  unfold monitor_website
  repeat' split
  all_goals simp [send_email]

/-- Function `get_page_content` only looks at the network's answer for its own URL. -/
theorem get_page_content_congr {web web' : String → FetchOutcome} {u : String}
    (hw : web' u = web u) : get_page_content web' u = get_page_content web u := by
  unfold get_page_content
  rw [hw]

/-- Function `send_email` only depends on the environment through the clock and
the relay's outcome for this message. -/
theorem send_email_congr {env env' : Env} {u : String}
    (hd : env'.deliver u = env.deliver u) (hn : env'.now = env.now)
    (o n : String) : send_email env' u o n = send_email env u o n := by
  simp [send_email, hd, hn]

/-- Function `monitor_website env u c` depends on `env` only through the fetch
outcome for `u`, the relay outcome for `u`, and the clock. -/
theorem monitor_website_congr {env env' : Env} {u : String}
    (hw : env'.web u = env.web u) (hd : env'.deliver u = env.deliver u)
    (hn : env'.now = env.now) (c : Option String) :
    monitor_website env' u c = monitor_website env u c := by
  simp only [monitor_website, get_page_content_congr hw, send_email_congr hd hn]


/-- The updated mapping of a cycle pairs each input URL with the content
component computed by its own `monitor_website` unit. -/
theorem monitor_cycle_fst (env : Env) (ws : List (String × Option String)) :
    (monitor_cycle env ws).1 =
      ws.map fun it => (it.1, (monitor_website env it.1 it.2).1.2) := by
  unfold monitor_cycle
  simp only [List.map_map]
  apply List.map_congr_left
  intro it _
  simp only [Function.comp_apply]
  have h := monitor_website_url env it.1 it.2
  rcases hmw : (monitor_website env it.1 it.2).1 with ⟨k, val⟩
  rw [hmw] at h
  simp only at h
  subst h
  rfl

/-- The cycle's notifications are the per-unit notification lists in order. -/
theorem monitor_cycle_snd (env : Env) (ws : List (String × Option String)) :
    (monitor_cycle env ws).2 =
      (ws.map fun it => (monitor_website env it.1 it.2).2).flatten := by
  unfold monitor_cycle
  simp [List.map_map, Function.comp_def]

/-- Looking up a present key in the cycle's resulting mapping gives the
content computed by that key's own `monitor_website` call. -/
theorem monitor_cycle_lookup (env : Env) :
    ∀ (ws : List (String × Option String)) (url : String) (c : Option String),
      (ws.map Prod.fst).Nodup → (url, c) ∈ ws →
      ((monitor_cycle env ws).1.lookup url) = some (monitor_website env url c).1.2 := by
  intro ws
  induction ws with
  | nil => intro url c _ hmem; cases hmem
  | cons hd t ih =>
    intro url c hnd hmem
    obtain ⟨u, v⟩ := hd
    rw [monitor_cycle_fst] at *
    simp only [List.map_cons, List.lookup_cons]
    simp only [List.map_cons, List.nodup_cons] at hnd
    rcases List.mem_cons.mp hmem with heq | hmem'
    · obtain ⟨h1, h2⟩ := Prod.mk.injEq .. ▸ heq
      subst h1; subst h2
      simp
    · have hu : u ≠ url := by
        intro h; subst h
        exact hnd.1 (List.mem_map_of_mem Prod.fst hmem')
      have hbeq : (url == u) = false := beq_eq_false_iff_ne.mpr (Ne.symm hu)
      simp only [hbeq]
      exact ih url c hnd.2 hmem'

/-- A URL absent from the input mapping gets no notification in the cycle. -/
theorem monitor_cycle_filter_not_mem (env : Env) :
    ∀ (ws : List (String × Option String)) (url : String),
      url ∉ ws.map Prod.fst →
      (monitor_cycle env ws).2.filter (fun n => n.url == url) = [] := by
  intro ws
  induction ws with
  | nil => intro url _; rw [monitor_cycle_snd]; rfl
  | cons hd t ih =>
    intro url hnm
    obtain ⟨u, v⟩ := hd
    simp only [List.map_cons, List.mem_cons] at hnm
    push_neg at hnm
    rw [monitor_cycle_snd]
    simp only [List.map_cons, List.flatten_cons, List.filter_append]
    rw [← monitor_cycle_snd]
    rw [ih url hnm.2]
    simp only [List.append_nil]
    apply List.filter_eq_nil_iff.mpr
    intro n hn
    have := monitor_website_notif_url env u v n hn
    simp [this, Ne.symm hnm.1]

/-- The cycle's notifications for a present key are exactly the ones its
own `monitor_website` call sent. -/
theorem monitor_cycle_filter (env : Env) :
    ∀ (ws : List (String × Option String)) (url : String) (c : Option String),
      (ws.map Prod.fst).Nodup → (url, c) ∈ ws →
      (monitor_cycle env ws).2.filter (fun n => n.url == url) =
        (monitor_website env url c).2 := by
  intro ws
  induction ws with
  | nil => intro url c _ hmem; cases hmem
  | cons hd t ih =>
    intro url c hnd hmem
    obtain ⟨u, v⟩ := hd
    simp only [List.map_cons, List.nodup_cons] at hnd
    rw [monitor_cycle_snd]
    simp only [List.map_cons, List.flatten_cons, List.filter_append]
    rw [← monitor_cycle_snd]
    rcases List.mem_cons.mp hmem with heq | hmem'
    · obtain ⟨h1, h2⟩ := Prod.mk.injEq .. ▸ heq
      subst h1; subst h2
      have htail : url ∉ t.map Prod.fst := hnd.1
      rw [monitor_cycle_filter_not_mem env t url htail]
      rw [List.append_nil]
      apply List.filter_eq_self.mpr
      intro n hn
      simp [monitor_website_notif_url env url c n hn]
    · have hu : u ≠ url := by
        intro h; subst h
        exact hnd.1 (List.mem_map_of_mem Prod.fst hmem')
      have hhead : (monitor_website env u v).2.filter (fun n => n.url == url) = [] := by
        apply List.filter_eq_nil_iff.mpr
        intro n hn
        simp [monitor_website_notif_url env u v n hn, hu]
      rw [hhead, List.nil_append]
      exact ih url c hnd.2 hmem'

/-- In a cycle's event trace every notification precedes the store of
the updated mapping, since the single `save_websites` call happens after
every `monitor_website` unit has returned. -/
theorem cycle_events_notify_before_store (env : Env)
    (ws : List (String × Option String)) {i j : Nat} {n : Notification}
    {m : List (String × Option String)}
    (hi : (cycle_events env ws)[i]? = some (Event.notify n))
    (hj : (cycle_events env ws)[j]? = some (Event.store m)) : i < j := by
  unfold cycle_events at hi hj
  set L := (monitor_cycle env ws).2.map Event.notify with hL
  have hjlen : L.length ≤ j := by
    by_contra h
    push_neg at h
    rw [List.getElem?_append_left h] at hj
    have : Event.store m ∈ L := List.getElem?_mem hj
    rw [hL] at this
    obtain ⟨n', _, habs⟩ := List.mem_map.mp this
    exact Event.noConfusion habs
  have hilen : i < L.length := by
    by_contra h
    push_neg at h
    rw [List.getElem?_append_right h] at hi
    rcases hk : i - L.length with _ | k
    · rw [hk] at hi
      simp at hi
    · rw [hk] at hi
      simp at hi
  exact Nat.lt_of_lt_of_le hilen hjlen

theorem str_contains_shift {s : String} (pre : String) {t : String}
    (h : str_contains_spec s t) : str_contains_spec (pre ++ s) t := by
  obtain ⟨a, b, rfl⟩ := h
  exact ⟨pre ++ a, b, by simp [String.append_assoc]⟩

theorem str_contains_start {t suf : String} : str_contains_spec (t ++ suf) t :=
  ⟨"", suf, by simp⟩

theorem str_contains_head_two {x y suf : String} :
    str_contains_spec (x ++ (y ++ suf)) (x ++ y) :=
  ⟨"", suf, by simp [String.append_assoc]⟩

/-! ### The claims -/

/-- C10: one cycle preserves the set of monitored URLs: the resulting
mapping has exactly the keys of the input mapping, in order, no matter
which fetches succeed or fail. -/
theorem claim_C10_cycle_preserves_keys (env : Env) (ws : List (String × Option String)) :
    (monitor_cycle env ws).1.map Prod.fst = ws.map Prod.fst := by
  rw [monitor_cycle_fst]
  simp [List.map_map, Function.comp_def]

/-- C5: `save_websites` followed by `load_websites` is the identity on
snapshot mappings (keys are unique in a mapping; content values may be
`NULL`), whatever the table held before. -/
theorem claim_C5_save_then_load_identity (table m : List (String × Option String))
    (hm : (m.map Prod.fst).Nodup) :
    load_websites (save_websites table m) = m := by
  unfold save_websites load_websites
  rw [insert_many_of_nodup m [] (by simpa using hm)]
  simpa using foldl_dict_insert_of_nodup m [] (by simpa using hm)

theorem claim_C5_save_then_load_identity_witness :
    ((([("a", some "x"), ("b", (none : Option String))].map Prod.fst).Nodup)
      ∧ load_websites (save_websites [("c", some "z")] [("a", some "x"), ("b", none)]) =
          [("a", some "x"), ("b", none)]) :=
  ⟨by decide,
   claim_C5_save_then_load_identity [("c", some "z")] [("a", some "x"), ("b", none)]
     (by decide)⟩

/-- C6: the fetcher returns the failure marker exactly on a
transport-level exception or an HTTP error status (and then logs the
error); being a total function into `Option String`, it either returns
a content string or the failure marker, and never raises. -/
theorem claim_C6_fetch_failure_marker (web : String → FetchOutcome) (url : String) :
    ((get_page_content web url).content = none ↔ fetch_failure (web url) = true)
    ∧ (get_page_content web url).errorLogged = fetch_failure (web url) := by
  unfold get_page_content fetch_failure
  cases web url with
  | exn msg => simp
  | response status doc =>
    by_cases h : 400 ≤ status ∧ status < 600
    · simp [h]
    · simp [h]

/-- C8: the composed notification email has a subject embedding the URL
and a body containing the URL, the timestamp, and the first 500
characters of the old and of the new content, each followed by an
unconditional `...` ellipsis marker. -/
theorem claim_C8_email_contents (ts url old_content new_content : String) :
    str_contains_spec (email_subject url) url
    ∧ str_contains_spec (email_body ts url old_content new_content) url
    ∧ str_contains_spec (email_body ts url old_content new_content) ts
    ∧ str_contains_spec (email_body ts url old_content new_content)
        (old_content.take 500 ++ "...")
    ∧ str_contains_spec (email_body ts url old_content new_content)
        (new_content.take 500 ++ "...") := by
  refine ⟨⟨"🌐 Website Change Detected: ", "", by simp [email_subject]⟩, ?_, ?_, ?_, ?_⟩ <;>
    simp only [email_body, String.append_assoc]
  · exact str_contains_shift _ str_contains_start
  · exact str_contains_shift _ (str_contains_shift _ (str_contains_shift _
      str_contains_start))
  · exact str_contains_shift _ (str_contains_shift _ (str_contains_shift _
      (str_contains_shift _ (str_contains_shift _ str_contains_head_two))))
  · exact str_contains_shift _ (str_contains_shift _ (str_contains_shift _
      (str_contains_shift _ (str_contains_shift _ (str_contains_shift _
        (str_contains_shift _ (str_contains_shift _ str_contains_head_two)))))))

/-- C1: for a URL whose stored snapshot is a non-empty string, if the
fetch succeeds with content differing from the snapshot by exact string
inequality, the cycle sends exactly one notification for that (url,
cycle) pair, every notification precedes the store of the updated
mapping in the event trace, and the resulting mapping maps the URL to
the fetched content. -/
theorem claim_C1_change_notifies_once_then_stores (env : Env)
    (ws : List (String × Option String)) (url old new_content : String)
    (hnd : (ws.map Prod.fst).Nodup) (hmem : (url, some old) ∈ ws) (hold : old ≠ "")
    (hfetch : (get_page_content env.web url).content = some new_content)
    (hdiff : new_content ≠ old) :
    (monitor_cycle env ws).2.filter (fun n => n.url == url) =
        [send_email env url old new_content]
      ∧ (monitor_cycle env ws).1.lookup url = some (some new_content)
      ∧ ∀ (i j : Nat) (n : Notification) (m : List (String × Option String)),
          (cycle_events env ws)[i]? = some (Event.notify n) →
          (cycle_events env ws)[j]? = some (Event.store m) → i < j := by
  have hstep : monitor_website env url (some old) =
      ((url, some new_content), [send_email env url old new_content]) := by
    unfold monitor_website
    rw [hfetch]
    simp [hold, hdiff]
  refine ⟨?_, ?_, ?_⟩
  · rw [monitor_cycle_filter env ws url (some old) hnd hmem, hstep]
  · rw [monitor_cycle_lookup env ws url (some old) hnd hmem, hstep]
  · intro i j n m hi hj
    exact cycle_events_notify_before_store env ws hi hj

theorem claim_C1_change_notifies_once_then_stores_witness :
    ((([("a", some "Hello")] : List (String × Option String)).map Prod.fst).Nodup
      ∧ ("a", some "Hello") ∈ ([("a", some "Hello")] : List (String × Option String))
      ∧ "Hello" ≠ ""
      ∧ (get_page_content env_world.web "a").content = some "World"
      ∧ "World" ≠ "Hello")
    ∧ ((monitor_cycle env_world [("a", some "Hello")]).2.filter (fun n => n.url == "a") =
          [send_email env_world "a" "Hello" "World"]
        ∧ (monitor_cycle env_world [("a", some "Hello")]).1.lookup "a" = some (some "World")
        ∧ ∀ (i j : Nat) (n : Notification) (m : List (String × Option String)),
            (cycle_events env_world [("a", some "Hello")])[i]? = some (Event.notify n) →
            (cycle_events env_world [("a", some "Hello")])[j]? = some (Event.store m) →
            i < j) :=
  ⟨⟨by decide, by decide, by decide, rfl, by decide⟩,
   claim_C1_change_notifies_once_then_stores env_world [("a", some "Hello")] "a" "Hello"
     "World" (by decide) (by decide) (by decide) rfl (by decide)⟩

/-- C2: for a URL with no prior snapshot (`NULL` or the empty string),
a successful fetch makes the cycle store the fetched content for that
URL and send no notification for it. -/
theorem claim_C2_first_observation_stores_silently (env : Env)
    (ws : List (String × Option String)) (url new_content : String) (c : Option String)
    (hnd : (ws.map Prod.fst).Nodup) (hc : c = none ∨ c = some "") (hmem : (url, c) ∈ ws)
    (hfetch : (get_page_content env.web url).content = some new_content) :
    (monitor_cycle env ws).1.lookup url = some (some new_content)
      ∧ (monitor_cycle env ws).2.filter (fun n => n.url == url) = [] := by
  have hstep : monitor_website env url c = ((url, some new_content), []) := by
    unfold monitor_website
    rw [hfetch]
    rcases hc with h | h <;> subst h <;> simp
  constructor
  · rw [monitor_cycle_lookup env ws url c hnd hmem, hstep]
  · rw [monitor_cycle_filter env ws url c hnd hmem, hstep]

theorem claim_C2_first_observation_stores_silently_witness :
    ((([("a", some "")] : List (String × Option String)).map Prod.fst).Nodup
      ∧ ((some "" : Option String) = none ∨ (some "" : Option String) = some "")
      ∧ ("a", some "") ∈ ([("a", some "")] : List (String × Option String))
      ∧ (get_page_content env_world.web "a").content = some "World")
    ∧ ((monitor_cycle env_world [("a", some "")]).1.lookup "a" = some (some "World")
        ∧ (monitor_cycle env_world [("a", some "")]).2.filter (fun n => n.url == "a") = []) :=
  ⟨⟨by decide, by decide, by decide, rfl⟩,
   claim_C2_first_observation_stores_silently env_world [("a", some "")] "a" "World"
     (some "") (by decide) (by decide) (by decide) rfl⟩

/-- C3: for a URL whose stored snapshot is a non-empty string, a
successful fetch returning exactly the stored content sends no
notification and leaves the URL's snapshot unchanged in the resulting
mapping. -/
theorem claim_C3_unchanged_content_is_silent (env : Env)
    (ws : List (String × Option String)) (url old : String)
    (hnd : (ws.map Prod.fst).Nodup) (hmem : (url, some old) ∈ ws) (hold : old ≠ "")
    (hfetch : (get_page_content env.web url).content = some old) :
    (monitor_cycle env ws).1.lookup url = some (some old)
      ∧ (monitor_cycle env ws).2.filter (fun n => n.url == url) = [] := by
  have hstep : monitor_website env url (some old) = ((url, some old), []) := by
    unfold monitor_website
    rw [hfetch]
    simp [hold]
  constructor
  · rw [monitor_cycle_lookup env ws url (some old) hnd hmem, hstep]
  · rw [monitor_cycle_filter env ws url (some old) hnd hmem, hstep]

theorem claim_C3_unchanged_content_is_silent_witness :
    ((([("a", some "World")] : List (String × Option String)).map Prod.fst).Nodup
      ∧ ("a", some "World") ∈ ([("a", some "World")] : List (String × Option String))
      ∧ "World" ≠ ""
      ∧ (get_page_content env_world.web "a").content = some "World")
    ∧ ((monitor_cycle env_world [("a", some "World")]).1.lookup "a" = some (some "World")
        ∧ (monitor_cycle env_world [("a", some "World")]).2.filter
            (fun n => n.url == "a") = []) :=
  ⟨⟨by decide, by decide, by decide, rfl⟩,
   claim_C3_unchanged_content_is_silent env_world [("a", some "World")] "a" "World"
     (by decide) (by decide) (by decide) rfl⟩

/-- C4: a fetch failure for URL X leaves X's snapshot exactly as stored,
sends no notification for X, and every other URL's unit computes the
same result as under any environment that only differs in what the
network answers for X (in particular one where X's fetch succeeds). -/
theorem claim_C4_fetch_failure_is_isolated (env env' : Env)
    (ws : List (String × Option String)) (url : String) (c : Option String)
    (hnd : (ws.map Prod.fst).Nodup) (hmem : (url, c) ∈ ws)
    (hfail : (get_page_content env.web url).content = none)
    (hweb : ∀ u, u ≠ url → env'.web u = env.web u)
    (hdel : ∀ u, env'.deliver u = env.deliver u) (hnow : env'.now = env.now) :
    (monitor_cycle env ws).1.lookup url = some c
      ∧ (monitor_cycle env ws).2.filter (fun n => n.url == url) = []
      ∧ ∀ y c', (y, c') ∈ ws → y ≠ url →
          monitor_website env y c' = monitor_website env' y c' := by
  have hstep : monitor_website env url c = ((url, c), []) := by
    unfold monitor_website
    rw [hfail]
  refine ⟨?_, ?_, ?_⟩
  · rw [monitor_cycle_lookup env ws url c hnd hmem, hstep]
  · rw [monitor_cycle_filter env ws url c hnd hmem, hstep]
  · intro y c' _ hy
    exact (monitor_website_congr (hweb y hy) (hdel y) hnow c').symm

theorem claim_C4_fetch_failure_is_isolated_witness :
    ((([("a", some "X"), ("b", some "Hello")] : List (String × Option String)).map
        Prod.fst).Nodup
      ∧ ("a", some "X") ∈
          ([("a", some "X"), ("b", some "Hello")] : List (String × Option String))
      ∧ (get_page_content env_fail_a.web "a").content = none
      ∧ (∀ u, u ≠ "a" → env_world.web u = env_fail_a.web u)
      ∧ (∀ u, env_world.deliver u = env_fail_a.deliver u)
      ∧ env_world.now = env_fail_a.now)
    ∧ ((monitor_cycle env_fail_a [("a", some "X"), ("b", some "Hello")]).1.lookup "a" =
          some (some "X")
        ∧ (monitor_cycle env_fail_a [("a", some "X"), ("b", some "Hello")]).2.filter
            (fun n => n.url == "a") = []
        ∧ ∀ y c', (y, c') ∈ ([("a", some "X"), ("b", some "Hello")] :
              List (String × Option String)) → y ≠ "a" →
            monitor_website env_fail_a y c' = monitor_website env_world y c') :=
  ⟨⟨by decide, by decide, rfl,
    fun u hu => by simp [env_world, env_fail_a, hu], fun u => rfl, rfl⟩,
   claim_C4_fetch_failure_is_isolated env_fail_a env_world
     [("a", some "X"), ("b", some "Hello")] "a" (some "X") (by decide) (by decide) rfl
     (fun u hu => by simp [env_world, env_fail_a, hu]) (fun u => rfl) rfl⟩

/-- C9: a notification-delivery failure is absorbed inside the notifier
(the cycle still records exactly one, undelivered, notification for the
URL), the URL's new content is still stored in the resulting mapping,
and every other URL's unit computes the same result as under any
environment that only differs in the relay's outcome for this URL. -/
theorem claim_C9_send_failure_still_stores (env env' : Env)
    (ws : List (String × Option String)) (url old new_content : String)
    (hnd : (ws.map Prod.fst).Nodup) (hmem : (url, some old) ∈ ws) (hold : old ≠ "")
    (hfetch : (get_page_content env.web url).content = some new_content)
    (hdiff : new_content ≠ old)
    (hfails : env.deliver url = false)
    (hweb : ∀ u, env'.web u = env.web u)
    (hdel : ∀ u, u ≠ url → env'.deliver u = env.deliver u) (hnow : env'.now = env.now) :
    (monitor_cycle env ws).1.lookup url = some (some new_content)
      ∧ ((monitor_cycle env ws).2.filter (fun n => n.url == url) =
            [send_email env url old new_content]
          ∧ (send_email env url old new_content).delivered = false)
      ∧ ∀ y c', (y, c') ∈ ws → y ≠ url →
          monitor_website env y c' = monitor_website env' y c' := by
  have hstep : monitor_website env url (some old) =
      ((url, some new_content), [send_email env url old new_content]) := by
    unfold monitor_website
    rw [hfetch]
    simp [hold, hdiff]
  refine ⟨?_, ⟨?_, ?_⟩, ?_⟩
  · rw [monitor_cycle_lookup env ws url (some old) hnd hmem, hstep]
  · rw [monitor_cycle_filter env ws url (some old) hnd hmem, hstep]
  · simp [send_email, hfails]
  · intro y c' _ hy
    exact (monitor_website_congr (hweb y) (hdel y hy) hnow c').symm

theorem claim_C9_send_failure_still_stores_witness :
    ((([("a", some "Hello"), ("b", some "World")] : List (String × Option String)).map
        Prod.fst).Nodup
      ∧ ("a", some "Hello") ∈
          ([("a", some "Hello"), ("b", some "World")] : List (String × Option String))
      ∧ "Hello" ≠ ""
      ∧ (get_page_content env_nodeliver_a.web "a").content = some "World"
      ∧ "World" ≠ "Hello"
      ∧ env_nodeliver_a.deliver "a" = false
      ∧ (∀ u, env_world.web u = env_nodeliver_a.web u)
      ∧ (∀ u, u ≠ "a" → env_world.deliver u = env_nodeliver_a.deliver u)
      ∧ env_world.now = env_nodeliver_a.now)
    ∧ ((monitor_cycle env_nodeliver_a [("a", some "Hello"), ("b", some "World")]).1.lookup
          "a" = some (some "World")
        ∧ ((monitor_cycle env_nodeliver_a
              [("a", some "Hello"), ("b", some "World")]).2.filter
                (fun n => n.url == "a") = [send_email env_nodeliver_a "a" "Hello" "World"]
            ∧ (send_email env_nodeliver_a "a" "Hello" "World").delivered = false)
        ∧ ∀ y c', (y, c') ∈ ([("a", some "Hello"), ("b", some "World")] :
              List (String × Option String)) → y ≠ "a" →
            monitor_website env_nodeliver_a y c' = monitor_website env_world y c') :=
  ⟨⟨by decide, by decide, by decide, rfl, by decide, by decide, fun u => rfl,
    fun u hu => by simp [env_world, env_nodeliver_a, hu], rfl⟩,
   claim_C9_send_failure_still_stores env_nodeliver_a env_world
     [("a", some "Hello"), ("b", some "World")] "a" "Hello" "World" (by decide) (by decide)
     (by decide) rfl (by decide) (by decide) (fun u => rfl)
     (fun u hu => by simp [env_world, env_nodeliver_a, hu]) rfl⟩

/-- C7: on a successful fetch the extracted content comes from the
first matching region in document order, in priority order `main`
element, else `div` with class `content`, else `body`, else the empty
string; extraction concatenates the whitespace-stripped text nodes of
the chosen region without inserting separators. -/
theorem claim_C7_extraction_region_priority (web : String → FetchOutcome)
    (url : String) (status : Nat) (doc : List Html)
    (hresp : web url = FetchOutcome.response status doc)
    (hok : ¬(400 ≤ status ∧ status < 600)) :
    (get_page_content web url).content =
      some (match ((preorder_list doc).find? (html_matches is_main_tag)).or
              (((preorder_list doc).find? (html_matches is_content_div)).or
                ((preorder_list doc).find? (html_matches is_body_tag))) with
            | some h => concat_all ((texts_node h).map py_strip)
            | none => "") := by
  unfold get_page_content
  rw [hresp]
  dsimp only
  rw [if_neg hok]
  simp only [← find_list_eq_first, ← get_text_strip_eq_concat]
  cases h1 : find_list is_main_tag doc <;>
    cases h2 : find_list is_content_div doc <;>
      cases h3 : find_list is_body_tag doc <;>
        simp [Option.orElse, Option.or, h1, h2, h3]

theorem claim_C7_extraction_region_priority_witness :
    (env_main_hi.web "u" = FetchOutcome.response 200 doc_main_hi
      ∧ ¬(400 ≤ 200 ∧ 200 < 600))
    ∧ (get_page_content env_main_hi.web "u").content =
        some (match ((preorder_list doc_main_hi).find? (html_matches is_main_tag)).or
                (((preorder_list doc_main_hi).find? (html_matches is_content_div)).or
                  ((preorder_list doc_main_hi).find? (html_matches is_body_tag))) with
              | some h => concat_all ((texts_node h).map py_strip)
              | none => "") :=
  ⟨⟨rfl, by decide⟩,
   claim_C7_extraction_region_priority env_main_hi.web "u" 200 doc_main_hi rfl (by decide)⟩

end Monitor
